import Mathlib

/-!
Verification development for the config-driven portal-automation engine.

The definitions below are a shallow embedding of the Python source:
  * `src/models/config_schemas.py` (ActionStep, WorkflowConfig,
    StatusDetectionConfig, SchoolConfigV2, ActionContext.substitute),
  * `src/agents/navigation_agent.py` (extract_status, navigate_to_application),
  * `src/agents/login_agent.py` (execute_login),
  * `src/agents/download_agent.py` (download_offer),
  * `src/agents/action_executor.py` (execute_action, _find_and_click),
  * `src/automation/workflows.py` (WorkflowEngine._execute_v2).

Browser and vision effects are abstracted as oracle arguments (a call that
can throw is an `Except` value; a click attempt that can fail is a `Bool`
outcome); all control flow is translated faithfully from the source.
-/

/-! ## Python string primitives -/

/-- Occurrence test used to embed Python's `needle in haystack` on strings:
`true` iff `pat` occurs as a contiguous sublist of `s` (the empty pattern
occurs everywhere, as in Python). -/
def occursInB (pat s : List Char) : Bool :=
  (List.range (s.length + 1)).any (fun i => pat.isPrefixOf (s.drop i))

/-- Embedding of Python `str.replace` on character lists: replace all
non-overlapping occurrences of `pat` by `rep`, scanning left to right.
(For the empty pattern we return `s` unchanged; every pattern the embedded
code uses is non-empty.)  The extra fuel argument only bounds the
recursion structurally; every scanning step consumes at least one
character, so `s.length` fuel is always sufficient and exhausted fuel
(which returns the remaining suffix unchanged) is never reached from
`replaceAll`. -/
def replaceAllFuel (pat rep : List Char) : Nat → List Char → List Char
  | 0, s => s
  | fuel + 1, s =>
    match s with
    | [] => []
    | c :: rest =>
      if pat ≠ [] ∧ pat.isPrefixOf (c :: rest) then
        rep ++ replaceAllFuel pat rep fuel ((c :: rest).drop pat.length)
      else
        c :: replaceAllFuel pat rep fuel rest

/-- Left-to-right replacement of all non-overlapping occurrences. -/
def replaceAll (s pat rep : List Char) : List Char :=
  replaceAllFuel pat rep s.length s

/-- Python `str.replace` lifted to `String`. -/
def pyReplace (s pat rep : String) : String :=
  ⟨replaceAll s.data pat.data rep.data⟩

/-- Python `needle in haystack` lifted to `String`. -/
def pyContains (pat s : String) : Bool :=
  occursInB pat.data s.data

/-- Python `str.lower` (characterwise lowercasing, which agrees with the
ASCII indicator strings the embedded code compares). -/
def pyLower (s : String) : String :=
  ⟨s.data.map Char.toLower⟩

/-! ## Data model (`src/models/schemas.py`, `src/models/config_schemas.py`) -/

/-- `ApplicationStatus` enum from `src/models/schemas.py`. -/
inductive ApplicationStatus where
  | pending
  | under_review
  | accepted
  | rejected
  | waitlisted
  | offer_ready
  | unknown
  deriving DecidableEq, Repr

/-- `StatusDetectionConfig` from `src/models/config_schemas.py`: the
StatusPatternTable, one substring-pattern list per detectable status. -/
structure StatusDetectionConfig where
  offer_ready : List String := []
  accepted : List String := []
  rejected : List String := []
  pending : List String := []

/-- The `getattr(config.status_detection, status_value.value, [])` lookup in
`extract_status`: patterns attached to a status value, `[]` for statuses
that have no field in `StatusDetectionConfig`. -/
def StatusDetectionConfig.patternsFor (cfg : StatusDetectionConfig) :
    ApplicationStatus → List String
  | .offer_ready => cfg.offer_ready
  | .accepted => cfg.accepted
  | .rejected => cfg.rejected
  | .pending => cfg.pending
  | _ => []

/-- The fixed priority order of the pattern check in
`NavigationAgent.extract_status` (navigation_agent.py:130-131). -/
def statusPriority : List ApplicationStatus :=
  [.offer_ready, .accepted, .rejected, .pending]

/-- One status matches a page iff some configured pattern, lowercased,
occurs in the lowercased page text (navigation_agent.py:134-135). -/
def statusMatches (cfg : StatusDetectionConfig) (pageText : String)
    (st : ApplicationStatus) : Bool :=
  (cfg.patternsFor st).any (fun p => pyContains (pyLower p) (pyLower pageText))

/-- The pattern-table lookup loop of `extract_status`
(navigation_agent.py:127-141): walk `statusPriority` in order and return
the first status with a matching pattern. -/
def findPatternStatus (cfg : StatusDetectionConfig) (pageText : String) :
    Option ApplicationStatus :=
  statusPriority.findSome? fun st =>
    if statusMatches cfg pageText st then some st else none

/-- The keyword classifier applied to the vision oracle's description when
no pattern matched (navigation_agent.py:152-161). -/
def inferFromVision (visionText : String) : ApplicationStatus :=
  let v := pyLower visionText
  if ["offer", "conditional", "unconditional", "acceptance"].any
      (fun w => pyContains w v) then .offer_ready
  else if ["accepted", "enrolled", "deposit"].any (fun w => pyContains w v) then
    .accepted
  else if ["rejected", "declined", "not accepted"].any
      (fun w => pyContains w v) then .rejected
  else .pending

/-- `NavigationAgent.extract_status` (navigation_agent.py:108-175), with the
vision call abstracted as an `Except` value (`Except.error e` models the
call throwing with message `e`).  The `try` block runs the pattern check,
then the vision call, then keyword inference when no pattern matched; the
`except` clause catches a throwing vision call and returns status
`pending` with the error text, regardless of any earlier pattern match.
Returns `(status_text, found_status)`. -/
def extractStatus (cfg : StatusDetectionConfig) (pageText : String)
    (visionResult : Except String String) : String × ApplicationStatus :=
  match visionResult with
  | .error e => (e, .pending)
  | .ok visionText =>
    match findPatternStatus cfg pageText with
    | some st => (visionText, st)
    | none => (visionText, inferFromVision visionText)

/-! ## Runtime context and parameter substitution
(`src/models/config_schemas.py`, `ActionContext`) -/

/-- `ActionContext` from `src/models/config_schemas.py`: the runtime
parameter bag.  Every field is `Optional[str] = None` in the source. -/
structure ActionContext where
  username : Option String := none
  password : Option String := none
  application_id : Option String := none
  student_name : Option String := none
  student_email : Option String := none
  school_name : Option String := none

/-- One guarded replacement line of `ActionContext.substitute`
(config_schemas.py:119-128): `if self.<field>: result =
result.replace(token, self.<field>)`.  Python truthiness of an
`Optional[str]` is `false` for `None` and for the empty string. -/
def applyParam (field : Option String) (token r : String) : String :=
  match field with
  | none => r
  | some v => if v = "" then r else pyReplace r token v

/-- `ActionContext.substitute` (config_schemas.py:113-130).  `if not value:
return value` is the empty-string guard (`value=None` is never passed here
in the embedding; the executor only substitutes present strings). -/
def ActionContext.substitute (ctx : ActionContext) (value : String) : String :=
  if value = "" then value
  else
    let r := value
    let r := applyParam ctx.username "{username}" r
    let r := applyParam ctx.password "{password}" r
    let r := applyParam ctx.application_id "{application_id}" r
    let r := applyParam ctx.student_name "{student_name}" r
    let r := applyParam ctx.student_email "{student_email}" r
    r

/-- The five substitutable parameters of `ActionContext.substitute`
(config_schemas.py:119-128), in the order the source replaces them.
(`school_name` has no `{param}` token and is never substituted.) -/
inductive Param where
  | username
  | password
  | application_id
  | student_name
  | student_email
  deriving DecidableEq, Repr

/-- The `{param}` token each parameter's replacement line targets. -/
def Param.token : Param → String
  | .username => "{username}"
  | .password => "{password}"
  | .application_id => "{application_id}"
  | .student_name => "{student_name}"
  | .student_email => "{student_email}"

/-- The `ActionContext` field backing each parameter. -/
def ActionContext.field (ctx : ActionContext) : Param → Option String
  | .username => ctx.username
  | .password => ctx.password
  | .application_id => ctx.application_id
  | .student_name => ctx.student_name
  | .student_email => ctx.student_email

/-- Text that cannot start a token: it contains no opening-brace
character.  Every `{param}` token starts with one, so occurrences of
tokens in a template can only start at its token pieces when the literal
pieces and the substituted values are brace-free. -/
def noBrace (s : String) : Bool :=
  s.data.all (fun c => c ≠ '{')

/-- A template piece of a step value or hint: literal text, or a
`{param}` token. -/
inductive TemplatePiece where
  | lit (s : String)
  | param (p : Param)
  deriving DecidableEq, Repr

/-- Render a template, interpreting each `{param}` token through `f`. -/
def renderWith (f : Param → String) : List TemplatePiece → String
  | [] => ""
  | .lit s :: rest => s ++ renderWith f rest
  | .param p :: rest => f p ++ renderWith f rest

/-- The literal text of a template: every token left as its `{param}`
form.  This is the step value or hint string the executor hands to
`substitute`. -/
def renderTemplate (tpl : List TemplatePiece) : String :=
  renderWith Param.token tpl

/-- The claim's expected rendering of one token: replaced by the field's
value exactly when that field is set to a non-empty value, the literal
token text otherwise. -/
def substitutedToken (ctx : ActionContext) (q : Param) : String :=
  match ctx.field q with
  | some v => if v = "" then q.token else v
  | none => q.token

/-- The claim's expected result of substitution on a template: each
`{param}` token replaced exactly when its field is set non-empty, every
other token left verbatim, literals untouched. -/
def substitutedTemplate (ctx : ActionContext) (tpl : List TemplatePiece) :
    String :=
  renderWith (substitutedToken ctx) tpl

/-- Intermediate interpretation while `substitute`'s replacement chain
runs: parameters in `done` have been processed (and so render as
`substitutedToken`), the rest still render as their tokens. -/
def stageInterp (ctx : ActionContext) (done : List Param) (q : Param) :
    String :=
  if q ∈ done then substitutedToken ctx q else q.token

/-! ## Action executor (`src/agents/action_executor.py`) -/

/-- The `{"success": ..., "data": ..., "error": ...}` dict returned by
`ActionExecutor.execute_action`. -/
structure ExecResult where
  success : Bool
  data : Option String := none
  error : Option String := none
  deriving DecidableEq, Repr

/-- The exception policy of `ActionExecutor.execute_action`
(action_executor.py:96-101): the routed handler either returns a result
dict (`Except.ok`) or raises (`Except.error e`); a raised exception is
caught, and yields `{"success": True}` when the step is optional,
`{"success": False, "error": str(e)}` otherwise. -/
def executeAction (opt : Bool) (body : Except String ExecResult) : ExecResult :=
  match body with
  | .ok r => r
  | .error e =>
    if opt then { success := true } else { success := false, error := some e }

/-- `_find_and_click`'s four fallback strategies
(action_executor.py:129-305), in source order. -/
inductive ClickStrategy where
  | structuralSelector
  | hintTextSelector
  | jsOverlay
  | anchorHasText
  deriving DecidableEq, Repr

/-- `ActionExecutor._find_and_click` (action_executor.py:103-309), with the
live page abstracted by one success oracle per strategy: `selOk s` is
whether the try-block for selector `s` in strategy 1 succeeds (native or
scripted click alike), `hintOk`/`jsOk`/`anchorOk` likewise for each hint
in strategies 2, 3 and 4.  Candidates are tried in list order inside each
strategy and strategies in fixed order; the first success ends resolution.
Returns the strategy and candidate that succeeded, `none` when all are
exhausted (the source then returns `False`). -/
def findAndClick (selectors hints : List String)
    (selOk hintOk jsOk anchorOk : String → Bool) :
    Option (ClickStrategy × String) :=
  match selectors.find? selOk with
  | some s => some (.structuralSelector, s)
  | none =>
    match hints.find? hintOk with
    | some h => some (.hintTextSelector, h)
    | none =>
      match hints.find? jsOk with
      | some h => some (.jsOverlay, h)
      | none =>
        match hints.find? anchorOk with
        | some h => some (.anchorHasText, h)
        | none => none

/-! ## Phase step loop and retry loop
(`src/agents/login_agent.py`, `navigation_agent.py`, `download_agent.py`) -/

/-- The per-attempt step loop of the Login and Navigation phases,
`execute_login` (login_agent.py:63-77) and `navigate_to_application`
(navigation_agent.py:62-76): steps are listed by their `optional` flag,
`outcomes i` is the `execute_action` result of the i-th step.  A failed
result on an optional step `continue`s; on a required step it raises,
ending the attempt.  Returns (attempt completed, steps executed),
counting steps from index `k`.  The Download phase's step loop has a
different, branching shape and is modelled separately by
`downloadStepsFrom` below; only its final `else` (regular-step) branch
shares this halting logic. -/
def runStepsFrom (steps : List Bool) (outcomes : Nat → ExecResult)
    (k : Nat) : Bool × Nat :=
  match steps with
  | [] => (true, 0)
  | opt :: rest =>
    if (outcomes k).success || opt then
      let (b, n) := runStepsFrom rest outcomes (k + 1)
      (b, n + 1)
    else
      (false, 1)

/-- A whole workflow attempt's step loop, from the first step. -/
def runAttemptSteps (steps : List Bool) (outcomes : Nat → ExecResult) :
    Bool × Nat :=
  runStepsFrom steps outcomes 0

/-- The branch that `download_offer`'s step loop selects for a step
(download_agent.py:63-218): the `if/elif` chain keys on the step's action
and flags — `capture_download` steps; `find_and_click` steps with
`triggers_download`; `find_and_click` steps with `opens_new_tab` (and not
`triggers_download`); and every other step (`regular`, carrying its
`optional` flag, the only branch that reads it). -/
inductive DownloadStepKind where
  | captureDownload
  | clickTriggersDownload
  | clickOpensNewTab
  | regular (opt : Bool)
  deriving DecidableEq, Repr

/-- The step loop of one `download_offer` attempt
(download_agent.py:57-221), faithful to its four branches.  `out i` is
the `execute_action` result of step `i`; `cap i` is the temp-file path
that the `triggers_download` / `opens_new_tab` machinery of step `i`
captured (`none` when all of that branch's capture paths failed — those
branches wrap every failure in try/except and never raise).  A
`capture_download` step records its result's data on success
(`result["success"] and "data" in result`; the data is non-None exactly
when present with success) and otherwise only logs a warning; the two
special click branches record `cap i` when present and leave
`download_result` untouched otherwise; only the `regular` branch checks
`result["success"]` and raises on a failed non-optional step.  Returns
(final `download_result`, attempt completed without raising, steps
executed), counting steps from index `k` with accumulator `acc`. -/
def downloadStepsFrom (steps : List DownloadStepKind)
    (out : Nat → ExecResult) (cap : Nat → Option String)
    (k : Nat) (acc : Option String) : Option String × Bool × Nat :=
  match steps with
  | [] => (acc, true, 0)
  | .captureDownload :: rest =>
    let acc' := if (out k).success && (out k).data.isSome then (out k).data
      else acc
    let r := downloadStepsFrom rest out cap (k + 1) acc'
    (r.1, r.2.1, r.2.2 + 1)
  | .clickTriggersDownload :: rest =>
    let acc' := match cap k with | some p => some p | none => acc
    let r := downloadStepsFrom rest out cap (k + 1) acc'
    (r.1, r.2.1, r.2.2 + 1)
  | .clickOpensNewTab :: rest =>
    let acc' := match cap k with | some p => some p | none => acc
    let r := downloadStepsFrom rest out cap (k + 1) acc'
    (r.1, r.2.1, r.2.2 + 1)
  | .regular opt :: rest =>
    if (out k).success || opt then
      let r := downloadStepsFrom rest out cap (k + 1) acc
      (r.1, r.2.1, r.2.2 + 1)
    else (acc, false, 1)

/-- The phase retry loop shared by the three agents
(login_agent.py:46-105, navigation_agent.py:49-106,
download_agent.py:46-263): `for attempt in range(1, retries + 1)`, one
attempt per iteration, stopping at the first attempt that completes
without raising; a raise on the last attempt (and a zero retry count)
gives overall failure.  `ok a` is whether attempt number `a` completes.
Returns (overall success, attempts executed); `a` is the current attempt
number, the second argument the remaining iteration budget. -/
def retryFrom (ok : Nat → Bool) : Nat → Nat → Bool × Nat
  | _, 0 => (false, 0)
  | a, rem + 1 =>
    if ok a then (true, 1)
    else
      let (b, n) := retryFrom ok (a + 1) rem
      (b, n + 1)

/-- Run a phase's retry loop with attempts numbered from 1, as in
`range(1, retries + 1)`. -/
def runPhaseRetries (retries : Nat) (ok : Nat → Bool) : Bool × Nat :=
  retryFrom ok 1 retries

/-- `LoginAgent.execute_login`'s boolean result (login_agent.py:46-105):
`True` at the first attempt that completes (steps and verification),
`False` once all `retries` attempts have raised. -/
def executeLogin (retries : Nat) (attemptOk : Nat → Bool) : Bool :=
  (runPhaseRetries retries attemptOk).1

/-! ## Navigation and download agents -/

/-- The result dict of `NavigationAgent.navigate_to_application`
(navigation_agent.py:82-106): `success`, `status_text`, `found_status`. -/
structure NavResult where
  success : Bool
  status_text : String
  found_status : Option ApplicationStatus
  deriving DecidableEq, Repr

/-- The retry loop of `navigate_to_application`
(navigation_agent.py:49-106): attempt `a` either completes with
`extract_status`'s `(status_text, found_status)` pair (`Except.ok`) or
raises with message `e` (`Except.error`).  A raise on a non-final attempt
sleeps and retries; on the final attempt it returns
`{"success": False, "status_text": str(e), "found_status": None}`; a zero
retry budget falls through to the `"Max retries exceeded"` dict. -/
def navRetryFrom (out : Nat → Except String (String × ApplicationStatus)) :
    Nat → Nat → NavResult
  | _, 0 => ⟨false, "Max retries exceeded", none⟩
  | a, rem + 1 =>
    match out a with
    | .ok (txt, st) => ⟨true, txt, some st⟩
    | .error e =>
      if rem = 0 then ⟨false, e, none⟩ else navRetryFrom out (a + 1) rem

/-- `navigate_to_application` with attempts numbered from 1. -/
def navigateToApplication (retries : Nat)
    (out : Nat → Except String (String × ApplicationStatus)) : NavResult :=
  navRetryFrom out 1 retries

/-- The retry loop of `DownloadAgent.download_offer`
(download_agent.py:46-263): attempt `a` yields `some savedPath` when a
file was captured and saved, `none` when the attempt raised (including
the `"Download completed but no file captured"` raise); after the final
failed attempt the agent returns `None`. -/
def downloadRetryFrom (out : Nat → Option String) : Nat → Nat → Option String
  | _, 0 => none
  | a, rem + 1 =>
    match out a with
    | some p => some p
    | none =>
      if rem = 0 then none else downloadRetryFrom out (a + 1) rem

/-- `download_offer` with attempts numbered from 1. -/
def downloadOffer (retries : Nat) (out : Nat → Option String) :
    Option String :=
  downloadRetryFrom out 1 retries

/-! ## Login verification heuristic (`login_agent.py:86-90`) -/

/-- The login-page markers checked after the login steps
(login_agent.py:86). -/
def loginPageMarkers : List String := ["sign in", "login", "username", "password"]

/-- The dashboard-style markers checked after the login steps
(login_agent.py:88). -/
def dashboardMarkers : List String := ["dashboard", "welcome", "applications", "logout"]

/-- The verification heuristic of `execute_login` (login_agent.py:86-90):
the attempt raises ("login verification failed") exactly when some
login-page marker occurs in the lowercased page text AND no
dashboard-style marker does. -/
def loginVerificationFailed (pageText : String) : Bool :=
  let low := pyLower pageText
  (loginPageMarkers.any fun m => pyContains m low) &&
    !(dashboardMarkers.any fun m => pyContains m low)

/-! ## Orchestrator (`src/automation/workflows.py`, `_execute_v2`) -/

/-- `.value` of the `ApplicationStatus` string enum. -/
def ApplicationStatus.value : ApplicationStatus → String
  | .pending => "pending"
  | .under_review => "under_review"
  | .accepted => "accepted"
  | .rejected => "rejected"
  | .waitlisted => "waitlisted"
  | .offer_ready => "offer_ready"
  | .unknown => "unknown"

/-- `ApplicationResult` from `src/models/schemas.py` (the fields
`_execute_v2` sets; timestamp and metadata map omitted). -/
structure ApplicationResult where
  success : Bool
  status : ApplicationStatus
  offer_downloaded : Bool := false
  offer_path : Option String := none
  message : String
  deriving DecidableEq, Repr

/-- Observable trace of one `_execute_v2` run: the returned
`ApplicationResult` plus how many times each phase agent was invoked. -/
structure V2Trace where
  result : ApplicationResult
  loginCalls : Nat
  navCalls : Nat
  downloadCalls : Nat
  deriving DecidableEq, Repr

/-- `WorkflowEngine._execute_v2` (workflows.py:104-209), with the three
phase agents' results passed as arguments: `loginSuccess` is
`execute_login`'s boolean, `navResult` is `navigate_to_application`'s
dict, `downloadResult` is `download_offer`'s optional saved path.  Login
failure returns the `"Login failed"` outcome without invoking navigation;
navigation failure returns `"Navigation failed"` without invoking
download; otherwise the status is `found_status` (`unknown` as the `.get`
default) and the download agent is invoked exactly when the status is
`offer_ready` or `accepted`; the run then completes with `success=True`,
recording a downloaded offer only when the download agent returned a
path. -/
def executeV2 (loginSuccess : Bool) (navResult : NavResult)
    (downloadResult : Option String) : V2Trace :=
  if !loginSuccess then
    ⟨⟨false, .unknown, false, none, "Login failed"⟩, 1, 0, 0⟩
  else if !navResult.success then
    ⟨⟨false, .unknown, false, none, "Navigation failed"⟩, 1, 1, 0⟩
  else
    let status := navResult.found_status.getD .unknown
    if status = .offer_ready ∨ status = .accepted then
      match downloadResult with
      | some p =>
        ⟨⟨true, status, true, some p,
          "Successfully checked application. Status: " ++ status.value⟩, 1, 1, 1⟩
      | none =>
        ⟨⟨true, status, false, none,
          "Successfully checked application. Status: " ++ status.value⟩, 1, 1, 1⟩
    else
      ⟨⟨true, status, false, none,
        "Successfully checked application. Status: " ++ status.value⟩, 1, 1, 0⟩

/-! ## Helper lemmas -/

theorem occursInB_cons_false {pat : List Char} {c : Char} {rest : List Char}
    (h : occursInB pat (c :: rest) = false) :
    ¬pat.isPrefixOf (c :: rest) = true ∧ occursInB pat rest = false := by
  simp only [occursInB, List.any_eq_false, List.mem_range] at h
  constructor
  · have h0 := h 0 (by omega)
    simpa only [List.drop_zero] using h0
  · simp only [occursInB, List.any_eq_false, List.mem_range]
    intro i hi
    have hstep := h (i + 1) (by simp only [List.length_cons]; omega)
    simpa only [List.drop_succ_cons] using hstep

theorem replaceAllFuel_of_no_occurrence (pat rep : List Char) :
    ∀ (fuel : Nat) (s : List Char), occursInB pat s = false →
      replaceAllFuel pat rep fuel s = s := by
  intro fuel
  induction fuel with
  | zero => intro s _; rfl
  | succ f ih =>
    intro s h
    cases s with
    | nil => rfl
    | cons c rest =>
      obtain ⟨hnp, hrest⟩ := occursInB_cons_false h
      simp only [replaceAllFuel]
      rw [if_neg, ih rest hrest]
      intro hcontra
      exact hnp hcontra.2

theorem replaceAll_of_no_occurrence (pat rep : List Char) :
    ∀ s : List Char, occursInB pat s = false → replaceAll s pat rep = s :=
  fun s h => replaceAllFuel_of_no_occurrence pat rep s.length s h

theorem pyReplace_of_not_contains (s pat rep : String)
    (h : pyContains pat s = false) : pyReplace s pat rep = s := by
  unfold pyReplace
  rw [replaceAll_of_no_occurrence _ _ _ h]

theorem replaceAllFuel_irrel (pat rep : List Char) :
    ∀ (f1 f2 : Nat) (s : List Char), s.length ≤ f1 → s.length ≤ f2 →
      replaceAllFuel pat rep f1 s = replaceAllFuel pat rep f2 s := by
  intro f1
  induction f1 with
  | zero =>
    intro f2 s h1 _
    have hs : s = [] := List.eq_nil_of_length_eq_zero (by omega)
    subst hs
    cases f2 <;> rfl
  | succ g ih =>
    intro f2 s h1 h2
    cases s with
    | nil => cases f2 <;> rfl
    | cons c rest =>
      obtain ⟨h', rfl⟩ : ∃ h', f2 = h' + 1 := by
        refine ⟨f2 - 1, ?_⟩
        simp only [List.length_cons] at h2
        omega
      by_cases hc : pat ≠ [] ∧ pat.isPrefixOf (c :: rest) = true
      · simp only [replaceAllFuel, if_pos hc]
        congr 1
        have hplen : 1 ≤ pat.length := by
          cases pat with
          | nil => exact absurd rfl hc.1
          | cons _ _ => simp
        apply ih
        · simp only [List.length_drop, List.length_cons] at *
          omega
        · simp only [List.length_drop, List.length_cons] at *
          omega
      · simp only [replaceAllFuel, if_neg hc]
        congr 1
        apply ih
        · simp only [List.length_cons] at h1
          omega
        · simp only [List.length_cons] at h2
          omega

theorem replaceAll_cons_pos (t v : List Char) (c : Char) (z : List Char)
    (ht : t ≠ []) (hp : t.isPrefixOf (c :: z) = true) :
    replaceAll (c :: z) t v = v ++ replaceAll ((c :: z).drop t.length) t v := by
  have hplen : 1 ≤ t.length := by
    cases t with
    | nil => exact absurd rfl ht
    | cons _ _ => simp
  show replaceAllFuel t v (c :: z).length (c :: z) = _
  rw [show (c :: z).length = z.length + 1 from by simp]
  simp only [replaceAllFuel, if_pos (And.intro ht hp)]
  congr 1
  apply replaceAllFuel_irrel
  · simp only [List.length_drop, List.length_cons]
    omega
  · simp [replaceAll]

theorem replaceAll_cons_neg (t v : List Char) (c : Char) (z : List Char)
    (h : ¬(t ≠ [] ∧ t.isPrefixOf (c :: z) = true)) :
    replaceAll (c :: z) t v = c :: replaceAll z t v := by
  show replaceAllFuel t v (c :: z).length (c :: z) = _
  rw [show (c :: z).length = z.length + 1 from by simp]
  simp only [replaceAllFuel, if_neg h]
  rfl

theorem replaceAll_skip_chunk (t v : List Char) (c0 : Char) (t' : List Char)
    (ht : t = c0 :: t') :
    ∀ (xs ys : List Char), (∀ c ∈ xs, c ≠ c0) →
      replaceAll (xs ++ ys) t v = xs ++ replaceAll ys t v := by
  intro xs
  induction xs with
  | nil => intro ys _; rfl
  | cons c xs' ih =>
    intro ys hxs
    have hc : c ≠ c0 := hxs c (by simp)
    have hnp : t.isPrefixOf (c :: (xs' ++ ys)) = false := by
      subst ht
      rw [List.isPrefixOf_cons₂]
      simp [Ne.symm hc]
    rw [List.cons_append, replaceAll_cons_neg t v c (xs' ++ ys)
      (by intro hcon; rw [hnp] at hcon; exact Bool.false_ne_true hcon.2)]
    rw [ih ys (fun d hd => hxs d (by simp [hd]))]
    simp

theorem replaceAll_head_token (t v ys : List Char) (ht : t ≠ []) :
    replaceAll (t ++ ys) t v = v ++ replaceAll ys t v := by
  obtain ⟨c0, t', rfl⟩ : ∃ c0 t', t = c0 :: t' := by
    cases t with
    | nil => exact absurd rfl ht
    | cons a b => exact ⟨a, b, rfl⟩
  rw [List.cons_append]
  rw [replaceAll_cons_pos (c0 :: t') v c0 (t' ++ ys) ht
    (by rw [show c0 :: (t' ++ ys) = (c0 :: t') ++ ys from rfl]
        simp [ List.isPrefixOf_iff_prefix])]
  congr 1
  rw [show c0 :: (t' ++ ys) = (c0 :: t') ++ ys from rfl, List.drop_left]

theorem not_isPrefixOf_append (t u ys : List Char)
    (h1 : t.isPrefixOf u = false) (h2 : u.isPrefixOf t = false) :
    t.isPrefixOf (u ++ ys) = false := by
  by_contra hcon
  have hp : t <+: u ++ ys := by
    rw [← List.isPrefixOf_iff_prefix]
    exact Bool.of_not_eq_false hcon
  have hu : u <+: u ++ ys := List.prefix_append u ys
  rcases List.prefix_or_prefix_of_prefix hp hu with h | h
  · rw [← List.isPrefixOf_iff_prefix] at h
    rw [h1] at h
    exact Bool.false_ne_true h
  · rw [← List.isPrefixOf_iff_prefix] at h
    rw [h2] at h
    exact Bool.false_ne_true h

theorem replaceAll_skip_other_token (t v : List Char) (c0 : Char)
    (tt uu : List Char) (cu : Char) (u' ys : List Char)
    (ht : t = c0 :: tt) (hu : uu = cu :: u')
    (hu' : ∀ c ∈ u', c ≠ c0)
    (h1 : t.isPrefixOf uu = false) (h2 : uu.isPrefixOf t = false) :
    replaceAll (uu ++ ys) t v = uu ++ replaceAll ys t v := by
  subst hu
  have hnp : t.isPrefixOf (cu :: (u' ++ ys)) = false := by
    rw [show cu :: (u' ++ ys) = (cu :: u') ++ ys from rfl]
    exact not_isPrefixOf_append t (cu :: u') ys h1 h2
  rw [List.cons_append, replaceAll_cons_neg t v cu (u' ++ ys)
    (by intro hcon; rw [hnp] at hcon; exact Bool.false_ne_true hcon.2)]
  rw [replaceAll_skip_chunk t v c0 tt ht u' ys hu']
  simp

theorem noBrace_mem {s : String} (h : noBrace s = true) :
    ∀ c ∈ s.data, c ≠ '{' := by
  simp only [noBrace, List.all_eq_true, decide_eq_true_eq] at h
  exact h

theorem token_data_shape (p : Param) :
    ∃ t', p.token.data = '{' :: t' ∧ ∀ c ∈ t', c ≠ '{' := by
  cases p <;> exact ⟨_, rfl, by decide⟩

theorem token_prefix_incomparable (p q : Param) (h : q ≠ p) :
    p.token.data.isPrefixOf q.token.data = false ∧
      q.token.data.isPrefixOf p.token.data = false := by
  cases p <;> cases q <;> first
    | exact absurd rfl h
    | exact ⟨by decide, by decide⟩

theorem pyReplace_append_noBrace (p : Param) (xs ys v : String)
    (hxs : noBrace xs = true) :
    pyReplace (xs ++ ys) p.token v = xs ++ pyReplace ys p.token v := by
  obtain ⟨t', ht, _⟩ := token_data_shape p
  apply String.ext
  show replaceAll (xs ++ ys).data p.token.data v.data =
    (xs ++ pyReplace ys p.token v).data
  rw [String.data_append, String.data_append]
  exact replaceAll_skip_chunk p.token.data v.data '{' t' ht xs.data ys.data
    (noBrace_mem hxs)

theorem pyReplace_token_self (p : Param) (ys v : String) :
    pyReplace (p.token ++ ys) p.token v = v ++ pyReplace ys p.token v := by
  obtain ⟨t', ht, _⟩ := token_data_shape p
  apply String.ext
  show replaceAll (p.token ++ ys).data p.token.data v.data =
    (v ++ pyReplace ys p.token v).data
  rw [String.data_append, String.data_append]
  exact replaceAll_head_token p.token.data v.data ys.data (by rw [ht]; simp)

theorem pyReplace_token_other (p q : Param) (hqp : q ≠ p) (ys v : String) :
    pyReplace (q.token ++ ys) p.token v =
      q.token ++ pyReplace ys p.token v := by
  obtain ⟨tp, htp, _⟩ := token_data_shape p
  obtain ⟨tq, htq, htq'⟩ := token_data_shape q
  have hpair := token_prefix_incomparable p q hqp
  apply String.ext
  show replaceAll (q.token ++ ys).data p.token.data v.data =
    (q.token ++ pyReplace ys p.token v).data
  rw [String.data_append, String.data_append]
  exact replaceAll_skip_other_token p.token.data v.data '{' tp
    q.token.data '{' tq ys.data htp htq htq' hpair.1 hpair.2

theorem pyReplace_renderWith (p : Param) (v : String) (f : Param → String)
    (hf : f p = p.token)
    (hothers : ∀ q, q ≠ p → f q = q.token ∨ noBrace (f q) = true) :
    ∀ tpl : List TemplatePiece,
    (∀ s, TemplatePiece.lit s ∈ tpl → noBrace s = true) →
    pyReplace (renderWith f tpl) p.token v =
      renderWith (fun q => if q = p then v else f q) tpl := by
  intro tpl
  induction tpl with
  | nil =>
    intro _
    apply String.ext
    rfl
  | cons piece rest ih =>
    intro hlit
    have hlitrest : ∀ s, TemplatePiece.lit s ∈ rest → noBrace s = true :=
      fun s hs => hlit s (by simp [hs])
    cases piece with
    | lit s =>
      have hs : noBrace s = true := hlit s (by simp)
      show pyReplace (s ++ renderWith f rest) p.token v = s ++ _
      rw [pyReplace_append_noBrace p s (renderWith f rest) v hs, ih hlitrest]
    | param q =>
      by_cases hq : q = p
      · subst hq
        show pyReplace (f q ++ renderWith f rest) q.token v =
          (if q = q then v else f q) ++ _
        rw [hf, pyReplace_token_self q (renderWith f rest) v, ih hlitrest]
        simp
      · rcases hothers q hq with htok | hbr
        · show pyReplace (f q ++ renderWith f rest) p.token v =
            (if q = p then v else f q) ++ _
          rw [htok, pyReplace_token_other p q hq (renderWith f rest) v,
            ih hlitrest]
          simp [hq, htok]
        · show pyReplace (f q ++ renderWith f rest) p.token v =
            (if q = p then v else f q) ++ _
          rw [pyReplace_append_noBrace p (f q) (renderWith f rest) v hbr,
            ih hlitrest]
          simp [hq]

theorem applyParam_stage (ctx : ActionContext) (p : Param)
    (done : List Param) (hp : p ∉ done) (tpl : List TemplatePiece)
    (hlit : ∀ s, TemplatePiece.lit s ∈ tpl → noBrace s = true)
    (hvals : ∀ (q : Param) (w : String), ctx.field q = some w →
      noBrace w = true) :
    applyParam (ctx.field p) p.token (renderWith (stageInterp ctx done) tpl)
      = renderWith (stageInterp ctx (done ++ [p])) tpl := by
  cases hfield : ctx.field p with
  | none =>
    show renderWith (stageInterp ctx done) tpl = _
    congr 1
    funext q
    by_cases hq : q = p
    · subst hq
      simp [stageInterp, hp, substitutedToken, hfield]
    · simp [stageInterp, hq]
  | some v =>
    by_cases hv : v = ""
    · subst hv
      have happly : applyParam (some "") p.token
          (renderWith (stageInterp ctx done) tpl) =
          renderWith (stageInterp ctx done) tpl := by
        simp [applyParam]
      rw [happly]
      congr 1
      funext q
      by_cases hq : q = p
      · subst hq
        simp [stageInterp, hp, substitutedToken, hfield]
      · simp [stageInterp, hq]
    · have happly : applyParam (some v) p.token
          (renderWith (stageInterp ctx done) tpl) =
          pyReplace (renderWith (stageInterp ctx done) tpl) p.token v := by
        simp [applyParam, hv]
      rw [happly]
      rw [pyReplace_renderWith p v (stageInterp ctx done)
        (by simp [stageInterp, hp])
        (by intro q hq
            by_cases hd : q ∈ done
            · simp only [stageInterp, if_pos hd]
              cases hfq : ctx.field q with
              | none => exact Or.inl (by simp [substitutedToken, hfq])
              | some w =>
                by_cases hw : w = ""
                · exact Or.inl (by simp [substitutedToken, hfq, hw])
                · exact Or.inr
                    (by simpa [substitutedToken, hfq, hw] using hvals q w hfq)
            · exact Or.inl (by simp [stageInterp, hd]))
        tpl hlit]
      congr 1
      funext q
      by_cases hq : q = p
      · subst hq
        simp [stageInterp, hp, substitutedToken, hfield, hv]
      · simp [stageInterp, hq]

theorem substitutedTemplate_of_render_empty (ctx : ActionContext) :
    ∀ tpl : List TemplatePiece, renderTemplate tpl = "" →
      substitutedTemplate ctx tpl = "" := by
  intro tpl
  induction tpl with
  | nil => intro _; rfl
  | cons piece rest ih =>
    cases piece with
    | lit s =>
      intro h
      have hdata : s.data ++ (renderTemplate rest).data = [] := by
        have hd := congrArg String.data h
        rw [show renderTemplate (TemplatePiece.lit s :: rest) =
          s ++ renderTemplate rest from rfl, String.data_append] at hd
        simpa using hd
      have hs : s = "" := String.ext (List.append_eq_nil.mp hdata).1
      have hr : renderTemplate rest = "" :=
        String.ext (List.append_eq_nil.mp hdata).2
      show s ++ substitutedTemplate ctx rest = ""
      rw [hs, ih hr]
      rfl
    | param p =>
      intro h
      exfalso
      have hdata := congrArg String.data h
      rw [show renderTemplate (TemplatePiece.param p :: rest) =
        p.token ++ renderTemplate rest from rfl, String.data_append] at hdata
      obtain ⟨t', ht, _⟩ := token_data_shape p
      rw [ht] at hdata
      simp at hdata

theorem runStepsFrom_append (rest : List Bool) (outcomes : Nat → ExecResult) :
    ∀ (pre : List Bool) (k : Nat),
    (∀ i (hi : i < pre.length),
      ((outcomes (k + i)).success || pre.get ⟨i, hi⟩) = true) →
    runStepsFrom (pre ++ rest) outcomes k =
      ((runStepsFrom rest outcomes (k + pre.length)).1,
        pre.length + (runStepsFrom rest outcomes (k + pre.length)).2) := by
  intro pre
  induction pre with
  | nil => intro k _; simp [runStepsFrom]
  | cons p pre' ih =>
    intro k hadv
    have h0 : ((outcomes k).success || p) = true := by
      have := hadv 0 (by simp)
      simpa using this
    simp only [List.cons_append, runStepsFrom, h0, if_true, List.append_eq]
    have hshift : ∀ i (hi : i < pre'.length),
        ((outcomes (k + 1 + i)).success || pre'.get ⟨i, hi⟩) = true := by
      intro i hi
      have := hadv (i + 1) (by simp only [List.length_cons]; omega)
      have harith : k + (i + 1) = k + 1 + i := by omega
      simpa [harith] using this
    rw [ih (k + 1) hshift]
    simp only [List.length_cons]
    have harith : k + 1 + pre'.length = k + (pre'.length + 1) := by omega
    rw [harith]
    congr 1
    omega

theorem retryFrom_count_le (ok : Nat → Bool) :
    ∀ rem a, (retryFrom ok a rem).2 ≤ rem := by
  intro rem
  induction rem with
  | zero => intro a; simp [retryFrom]
  | succ rem' ih =>
    intro a
    by_cases h : ok a = true
    · simp [retryFrom, h]
    · simp only [Bool.not_eq_true] at h
      have := ih (a + 1)
      simp [retryFrom, h]
      omega

theorem retryFrom_all_false (ok : Nat → Bool) (hall : ∀ b, ok b = false) :
    ∀ rem a, retryFrom ok a rem = (false, rem) := by
  intro rem
  induction rem with
  | zero => intro a; rfl
  | succ rem' ih =>
    intro a
    simp [retryFrom, hall a, ih (a + 1)]

theorem retryFrom_count_pos (ok : Nat → Bool) (a rem : Nat) :
    1 ≤ (retryFrom ok a (rem + 1)).2 := by
  by_cases h : ok a = true
  · simp [retryFrom, h]
  · simp only [Bool.not_eq_true] at h
    simp [retryFrom, h]

theorem retryFrom_skip (ok : Nat → Bool) :
    ∀ (j : Nat) (a rem : Nat), j ≤ rem →
    (∀ b, a ≤ b → b < a + j → ok b = false) →
    (retryFrom ok a rem).1 = (retryFrom ok (a + j) (rem - j)).1 ∧
      (retryFrom ok a rem).2 = j + (retryFrom ok (a + j) (rem - j)).2 := by
  intro j
  induction j with
  | zero => intro a rem _ _; refine ⟨?_, ?_⟩ <;> simp
  | succ j' ih =>
    intro a rem hle hfail
    obtain ⟨rem', rfl⟩ : ∃ r, rem = r + 1 := ⟨rem - 1, by omega⟩
    have ha : ok a = false := hfail a (le_refl a) (by omega)
    have hu1 : (retryFrom ok a (rem' + 1)).1 = (retryFrom ok (a + 1) rem').1 := by
      simp [retryFrom, ha]
    have hu2 : (retryFrom ok a (rem' + 1)).2 = (retryFrom ok (a + 1) rem').2 + 1 := by
      simp [retryFrom, ha]
    rw [hu1, hu2]
    have hfail' : ∀ b, a + 1 ≤ b → b < a + 1 + j' → ok b = false := by
      intro b hb1 hb2
      exact hfail b (by omega) (by omega)
    have hrec := ih (a + 1) rem' (by omega) hfail'
    have harith1 : a + 1 + j' = a + (j' + 1) := by omega
    have harith2 : rem' - j' = rem' + 1 - (j' + 1) := by omega
    rw [harith1, harith2] at hrec
    refine ⟨hrec.1, ?_⟩
    rw [hrec.2]
    omega

theorem downloadRetryFrom_all_none (out : Nat → Option String)
    (hall : ∀ b, out b = none) :
    ∀ rem a, downloadRetryFrom out a rem = none := by
  intro rem
  induction rem with
  | zero => intro a; rfl
  | succ rem' ih =>
    intro a
    simp only [downloadRetryFrom, hall a]
    cases rem' with
    | zero => simp
    | succ r => simpa using ih (a + 1)

theorem navRetryFrom_all_error (out : Nat → Except String (String × ApplicationStatus))
    (hall : ∀ b, ∃ e, out b = .error e) :
    ∀ rem a, (navRetryFrom out a rem).success = false ∧
      (navRetryFrom out a rem).found_status = none := by
  intro rem
  induction rem with
  | zero => intro a; exact ⟨rfl, rfl⟩
  | succ rem' ih =>
    intro a
    obtain ⟨e, he⟩ := hall a
    simp only [navRetryFrom, he]
    cases rem' with
    | zero => simp
    | succ r => simpa using ih (a + 1)

/-! ## Claims -/

/-- C1: Status resolution is priority-ordered over the StatusPatternTable:
for every page text, the patterns are checked in the fixed order
offer-ready, accepted, rejected, pending, and the first status whose
pattern list contains a case-insensitive substring of the page text is the
resolved status; in particular, a page whose text contains both an
offer-ready pattern and a pending pattern resolves to offer-ready. -/
theorem statusPatternTable_priority_ordered
    (cfg : StatusDetectionConfig) (pageText visionText : String) :
    (statusMatches cfg pageText .offer_ready = true →
      (extractStatus cfg pageText (.ok visionText)).2 = .offer_ready) ∧
    (statusMatches cfg pageText .offer_ready = false →
      statusMatches cfg pageText .accepted = true →
      (extractStatus cfg pageText (.ok visionText)).2 = .accepted) ∧
    (statusMatches cfg pageText .offer_ready = false →
      statusMatches cfg pageText .accepted = false →
      statusMatches cfg pageText .rejected = true →
      (extractStatus cfg pageText (.ok visionText)).2 = .rejected) ∧
    (statusMatches cfg pageText .offer_ready = false →
      statusMatches cfg pageText .accepted = false →
      statusMatches cfg pageText .rejected = false →
      statusMatches cfg pageText .pending = true →
      (extractStatus cfg pageText (.ok visionText)).2 = .pending) ∧
    (∀ p q, p ∈ cfg.offer_ready → pyContains (pyLower p) (pyLower pageText) = true →
      q ∈ cfg.pending → pyContains (pyLower q) (pyLower pageText) = true →
      (extractStatus cfg pageText (.ok visionText)).2 = .offer_ready) := by
  refine ⟨?_, ?_, ?_, ?_, ?_⟩
  · intro h1
    simp [extractStatus, findPatternStatus, statusPriority, h1]
  · intro h1 h2
    simp [extractStatus, findPatternStatus, statusPriority, h1, h2]
  · intro h1 h2 h3
    simp [extractStatus, findPatternStatus, statusPriority, h1, h2, h3]
  · intro h1 h2 h3 h4
    simp [extractStatus, findPatternStatus, statusPriority, h1, h2, h3, h4]
  · intro p q hp hcp hq hcq
    have h1 : statusMatches cfg pageText .offer_ready = true := by
      simp only [statusMatches, StatusDetectionConfig.patternsFor, List.any_eq_true]
      exact ⟨p, hp, hcp⟩
    simp [extractStatus, findPatternStatus, statusPriority, h1]

/-- Closed witness for the C1 theorem at a concrete configuration and
page: a page carrying both an offer-ready pattern and a pending pattern
resolves to offer-ready. -/
theorem statusPatternTable_priority_ordered_witness :
    (extractStatus
      { offer_ready := ["conditional offer"], pending := ["under review"] }
      "Your Conditional Offer is here; file still Under Review"
      (.ok "vision summary")).2 = .offer_ready :=
  (statusPatternTable_priority_ordered
      { offer_ready := ["conditional offer"], pending := ["under review"] }
      "Your Conditional Offer is here; file still Under Review"
      "vision summary").2.2.2.2
    "conditional offer" "under review"
    (by decide) (by decide) (by decide) (by decide)

/-- C2: once the run reaches the status-check state (login and navigation
both succeeded), the orchestrator invokes the download agent exactly when
the resolved status is offer-ready or accepted, and skips it for every
other status. -/
theorem download_phase_iff_offer_or_accepted
    (nav : NavResult) (d : Option String) (hnav : nav.success = true) :
    ((executeV2 true nav d).downloadCalls = 1 ↔
      (nav.found_status.getD .unknown = .offer_ready ∨
        nav.found_status.getD .unknown = .accepted)) ∧
    ((executeV2 true nav d).downloadCalls = 0 ↔
      ¬(nav.found_status.getD .unknown = .offer_ready ∨
        nav.found_status.getD .unknown = .accepted)) := by
  by_cases hc : nav.found_status.getD .unknown = .offer_ready ∨
      nav.found_status.getD .unknown = .accepted
  · cases d <;> simp [executeV2, hnav, hc]
  · simp [executeV2, hnav, hc]

/-- Closed witness for the C2 theorem: with a successful navigation that
resolved status offer-ready, the download agent is invoked. -/
theorem download_phase_iff_offer_or_accepted_witness :
    (executeV2 true ⟨true, "conditional offer", some .offer_ready⟩
      none).downloadCalls = 1 :=
  ((download_phase_iff_offer_or_accepted
      ⟨true, "conditional offer", some .offer_ready⟩ none rfl).1).mpr
    (Or.inl rfl)

/-- C3 counterexample: the Download phase exhausts all three of its retry
attempts (each attempt raises, so `download_offer` returns `None`), yet
`_execute_v2` completes the run with `success = true` and
`offer_downloaded = false` — not the `success = false` terminal outcome
the claim requires of every phase. -/
theorem download_exhaustion_not_fatal_cex :
    downloadOffer 3 (fun _ => none) = none ∧
    (executeV2 true ⟨true, "conditional offer", some .offer_ready⟩
        (downloadOffer 3 (fun _ => none))).result.success = true ∧
    (executeV2 true ⟨true, "conditional offer", some .offer_ready⟩
        (downloadOffer 3 (fun _ => none))).result.offer_downloaded = false := by
  refine ⟨rfl, rfl, rfl⟩

/-- C3 amended: exhausting all retries of the Login or Navigation phase is
fatal — the orchestrator emits a failed outcome and performs no further
phase — but exhausting the Download phase's retries is not: the run still
completes with `success = true`, merely with `offer_downloaded = false`. -/
theorem phase_exhaustion_outcomes :
    (∀ retries (ok : Nat → Bool) (nav : NavResult) (d : Option String),
      (∀ a, ok a = false) →
      executeV2 (executeLogin retries ok) nav d =
        ⟨⟨false, .unknown, false, none, "Login failed"⟩, 1, 0, 0⟩) ∧
    (∀ retries (out : Nat → Except String (String × ApplicationStatus))
        (d : Option String),
      (∀ a, ∃ e, out a = Except.error e) →
      (executeV2 true (navigateToApplication retries out) d).result.success
          = false ∧
      (executeV2 true (navigateToApplication retries out) d).downloadCalls
          = 0) ∧
    (∀ retries (out : Nat → Option String) (nav : NavResult),
      (∀ a, out a = none) → nav.success = true →
      (executeV2 true nav (downloadOffer retries out)).result.success
          = true ∧
      (executeV2 true nav
          (downloadOffer retries out)).result.offer_downloaded = false) := by
  refine ⟨?_, ?_, ?_⟩
  · intro retries ok nav d hall
    have hlog : executeLogin retries ok = false := by
      unfold executeLogin runPhaseRetries
      rw [retryFrom_all_false ok hall retries 1]
    rw [hlog]
    simp [executeV2]
  · intro retries out d hall
    have hnav := navRetryFrom_all_error out hall retries 1
    unfold navigateToApplication
    simp [executeV2, hnav.1]
  · intro retries out nav hall hnav
    have hdl : downloadOffer retries out = none := by
      unfold downloadOffer
      exact downloadRetryFrom_all_none out hall retries 1
    rw [hdl]
    by_cases hc : nav.found_status.getD .unknown = .offer_ready ∨
        nav.found_status.getD .unknown = .accepted
    · simp [executeV2, hnav, hc]
    · simp [executeV2, hnav, hc]

/-- Closed witness for the amended C3 theorem: a login phase whose three
attempts all fail yields the failed login outcome with no further phases,
and a download phase whose three attempts all fail still completes the
run successfully. -/
theorem phase_exhaustion_outcomes_witness :
    executeV2 (executeLogin 3 (fun _ => false))
        ⟨true, "t", some .offer_ready⟩ none =
      ⟨⟨false, .unknown, false, none, "Login failed"⟩, 1, 0, 0⟩ ∧
    (executeV2 true ⟨true, "t", some .offer_ready⟩
        (downloadOffer 3 (fun _ => none))).result.success = true :=
  ⟨phase_exhaustion_outcomes.1 3 (fun _ => false)
      ⟨true, "t", some .offer_ready⟩ none (fun _ => rfl),
    (phase_exhaustion_outcomes.2.2 3 (fun _ => none)
      ⟨true, "t", some .offer_ready⟩ (fun _ => rfl) rfl).1⟩

/-- C8: when the Navigation phase exhausts all `max_retries` attempts with
failures, the orchestrator returns `success = false` with
`status = unknown`, the Download phase is never invoked, and login is not
re-attempted (exactly one login call, one navigation call, zero download
calls). -/
theorem navigation_exhaustion_terminal (retries : Nat)
    (out : Nat → Except String (String × ApplicationStatus))
    (d : Option String)
    (hall : ∀ a, ∃ e, out a = Except.error e) :
    (navigateToApplication retries out).success = false ∧
    (executeV2 true (navigateToApplication retries out) d).result.success
        = false ∧
    (executeV2 true (navigateToApplication retries out) d).result.status
        = .unknown ∧
    (executeV2 true (navigateToApplication retries out) d).downloadCalls
        = 0 ∧
    (executeV2 true (navigateToApplication retries out) d).loginCalls = 1 ∧
    (executeV2 true (navigateToApplication retries out) d).navCalls = 1 := by
  have hnav := navRetryFrom_all_error out hall retries 1
  unfold navigateToApplication
  simp [executeV2, hnav.1]

/-- Closed witness for the C8 theorem: three navigation attempts, each
failing with a resolution error, give a failed unknown-status outcome and
no download invocation. -/
theorem navigation_exhaustion_terminal_witness :
    (executeV2 true
        (navigateToApplication 3 (fun _ => Except.error "resolution failure"))
        none).result.status = .unknown :=
  (navigation_exhaustion_terminal 3 (fun _ => Except.error "resolution failure")
      none (fun _ => ⟨"resolution failure", rfl⟩)).2.2.1

/-- Helper for C5: a phase's step loop walks straight past an optional
step — whatever that step's result, execution continues with the steps
after it. -/
theorem runStepsFrom_optional_advances (post : List Bool)
    (outcomes : Nat → ExecResult) (pre : List Bool) (k : Nat)
    (hadv : ∀ i (hi : i < pre.length),
      ((outcomes (k + i)).success || pre.get ⟨i, hi⟩) = true) :
    runStepsFrom (pre ++ true :: post) outcomes k =
      ((runStepsFrom post outcomes (k + pre.length + 1)).1,
        pre.length + 1 + (runStepsFrom post outcomes (k + pre.length + 1)).2) := by
  rw [runStepsFrom_append (true :: post) outcomes pre k hadv]
  have hstep : runStepsFrom (true :: post) outcomes (k + pre.length) =
      ((runStepsFrom post outcomes (k + pre.length + 1)).1,
        (runStepsFrom post outcomes (k + pre.length + 1)).2 + 1) := by
    simp [runStepsFrom]
  rw [hstep]
  congr 1
  omega

/-- C4 counterexample: in the Download phase, a non-optional
`capture_download` step (the `optional` flag defaults to false, and that
branch never reads it) whose `execute_action` result is `success=false`
does not terminate the attempt: the following step still executes — two
steps run and the loop completes — contradicting the claim's immediate
termination for every phase. -/
theorem download_capture_failure_not_halting_cex :
    ((fun i => ({ success := decide (i ≠ 0) } : ExecResult)) 0).success
        = false ∧
    downloadStepsFrom [.captureDownload, .regular false]
        (fun i => { success := decide (i ≠ 0) }) (fun _ => none) 0 none
      = (none, true, 2) :=
  ⟨rfl, rfl⟩

/-- C4 amended: in the Login and Navigation phases — and in the Download
phase's regular-step (`else`) branch — a `success=false` result on a
non-optional step terminates the phase attempt immediately (with every
earlier step advancing, exactly `pre.length + 1` steps execute and the
attempt fails) and triggers exactly one further retry-loop iteration
(whenever attempts 1..a all fail and a < max_retries, attempt a+1
executes), up to `max_retries` attempts in total; in the Download phase's
`capture_download`, download-click and new-tab-click branches, however, a
failed step never halts the attempt — the loop always advances to the
remaining steps. -/
theorem required_step_failure_halts_attempt
    (pre post : List Bool) (outcomes : Nat → ExecResult)
    (retries : Nat) (ok : Nat → Bool) (a : Nat) :
    ((∀ i (hi : i < pre.length),
        ((outcomes i).success || pre.get ⟨i, hi⟩) = true) →
      (outcomes pre.length).success = false →
      runAttemptSteps (pre ++ false :: post) outcomes =
        (false, pre.length + 1)) ∧
    ((runPhaseRetries retries ok).2 ≤ retries) ∧
    (1 ≤ a → a < retries → (∀ b, 1 ≤ b → b ≤ a → ok b = false) →
      a + 1 ≤ (runPhaseRetries retries ok).2) ∧
    (∀ (rest : List DownloadStepKind) (out : Nat → ExecResult)
        (cap : Nat → Option String) (k : Nat) (acc : Option String),
      (out k).success = false →
      downloadStepsFrom (.regular false :: rest) out cap k acc
        = (acc, false, 1)) ∧
    (∀ (kind : DownloadStepKind) (rest : List DownloadStepKind)
        (out : Nat → ExecResult) (cap : Nat → Option String)
        (k : Nat) (acc : Option String),
      kind = .captureDownload ∨ kind = .clickTriggersDownload ∨
        kind = .clickOpensNewTab →
      ∃ acc', downloadStepsFrom (kind :: rest) out cap k acc =
        ((downloadStepsFrom rest out cap (k + 1) acc').1,
          (downloadStepsFrom rest out cap (k + 1) acc').2.1,
          (downloadStepsFrom rest out cap (k + 1) acc').2.2 + 1)) := by
  refine ⟨?_, ?_, ?_, ?_, ?_⟩
  · intro hadv hfail
    unfold runAttemptSteps
    rw [runStepsFrom_append (false :: post) outcomes pre 0
      (by intro i hi; simpa using hadv i hi)]
    have hstep : runStepsFrom (false :: post) outcomes (0 + pre.length) =
        (false, 1) := by
      simp [runStepsFrom, hfail]
    rw [hstep]
  · exact retryFrom_count_le ok retries 1
  · intro ha1 ha2 hfails
    have hskip := retryFrom_skip ok a 1 retries (by omega)
      (by intro b hb1 hb2; exact hfails b hb1 (by omega))
    have hsub : ∃ r, retries - a = r + 1 := ⟨retries - a - 1, by omega⟩
    obtain ⟨r, hr⟩ := hsub
    have hpos : 1 ≤ (retryFrom ok (1 + a) (retries - a)).2 := by
      rw [hr]
      exact retryFrom_count_pos ok (1 + a) r
    unfold runPhaseRetries
    rw [hskip.2]
    omega
  · intro rest out cap k acc hfail
    simp [downloadStepsFrom, hfail]
  · intro kind rest out cap k acc hk
    rcases hk with rfl | rfl | rfl
    · exact ⟨if (out k).success && (out k).data.isSome then (out k).data
        else acc, rfl⟩
    · exact ⟨match cap k with | some p => some p | none => acc, rfl⟩
    · exact ⟨match cap k with | some p => some p | none => acc, rfl⟩

/-- Closed witness for the amended C4 theorem: a single failing required
step halts a login/navigation attempt after one step; with attempt 1
failing out of three retries at least two attempts run, never more than
three; a failing required regular step halts a download attempt; and a
failing capture step advances the download loop. -/
theorem required_step_failure_halts_attempt_witness :
    runAttemptSteps [false] (fun _ => { success := false }) = (false, 1) ∧
    (runPhaseRetries 3 (fun b => decide (b = 2))).2 ≤ 3 ∧
    2 ≤ (runPhaseRetries 3 (fun b => decide (b = 2))).2 ∧
    downloadStepsFrom [.regular false] (fun _ => { success := false })
        (fun _ => none) 0 none = (none, false, 1) ∧
    (∃ acc', downloadStepsFrom [.captureDownload]
        (fun _ => ({ success := false } : ExecResult)) (fun _ => none) 0 none
      = ((downloadStepsFrom [] (fun _ => ({ success := false } : ExecResult))
            (fun _ => none) 1 acc').1,
          (downloadStepsFrom [] (fun _ => ({ success := false } : ExecResult))
            (fun _ => none) 1 acc').2.1,
          (downloadStepsFrom [] (fun _ => ({ success := false } : ExecResult))
            (fun _ => none) 1 acc').2.2 + 1)) := by
  have h := required_step_failure_halts_attempt [] []
    (fun _ => { success := false }) 3 (fun b => decide (b = 2)) 1
  refine ⟨h.1 (by intro i hi; simp at hi) rfl, h.2.1,
    h.2.2.1 (by decide) (by decide)
      (by intro b hb1 hb2
          have hb : b = 1 := by omega
          subst hb
          rfl),
    h.2.2.2.1 [] (fun _ => { success := false }) (fun _ => none) 0 none rfl,
    h.2.2.2.2 .captureDownload [] (fun _ => { success := false })
      (fun _ => none) 0 none (Or.inl rfl)⟩

/-- C5: an optional step can never abort its owning phase: an exception
raised while executing an optional step makes the executor return
`success=true`; whatever an optional step's result, the phase's step loop
advances to the steps after it; only for a non-optional step does the
exception become a failed result, the phase's failure. -/
theorem optional_step_never_aborts_phase
    (e : String) (pre post : List Bool) (outcomes : Nat → ExecResult) :
    executeAction true (Except.error e) = { success := true } ∧
    ((∀ i (hi : i < pre.length),
        ((outcomes i).success || pre.get ⟨i, hi⟩) = true) →
      runAttemptSteps (pre ++ true :: post) outcomes =
        ((runStepsFrom post outcomes (pre.length + 1)).1,
          pre.length + 1 + (runStepsFrom post outcomes (pre.length + 1)).2)) ∧
    executeAction false (Except.error e) = { success := false, error := some e } := by
  refine ⟨rfl, ?_, rfl⟩
  intro hadv
  unfold runAttemptSteps
  have h := runStepsFrom_optional_advances post outcomes pre 0
    (by intro i hi; simpa using hadv i hi)
  simpa using h

/-- Closed witness for the C5 theorem: a failing optional step in the
middle of a three-step attempt does not stop the loop — all three steps
execute and the attempt completes. -/
theorem optional_step_never_aborts_phase_witness :
    executeAction true (Except.error "boom") = { success := true } ∧
    runAttemptSteps [false, true, false]
      (fun i => { success := decide (i ≠ 1) }) = (true, 3) := by
  have hadv : ∀ i (hi : i < [false].length),
      (((fun i => ({ success := decide (i ≠ 1) } : ExecResult)) i).success
        || [false].get ⟨i, hi⟩) = true := by
    intro i hi
    have hi0 : i = 0 := by simpa using hi
    subst hi0
    rfl
  have h := optional_step_never_aborts_phase "boom" [false] [false]
    (fun i => { success := decide (i ≠ 1) })
  refine ⟨h.1, ?_⟩
  have h2 := h.2.1 hadv
  rw [show runAttemptSteps [false, true, false]
      (fun i => ({ success := decide (i ≠ 1) } : ExecResult)) =
      runAttemptSteps ([false] ++ true :: [false])
      (fun i => ({ success := decide (i ≠ 1) } : ExecResult)) from rfl, h2]
  decide

/-- C6: after all login steps succeed, the attempt is classified as failed
exactly when the page text contains some login-page marker and no
dashboard-style marker; in particular any page carrying the "dashboard"
marker is classified as logged-in even when login markers are present —
the dashboard marker wins. -/
theorem login_verification_dashboard_wins (pageText : String) :
    (loginVerificationFailed pageText = true ↔
      ((∃ m ∈ loginPageMarkers, pyContains m (pyLower pageText) = true) ∧
        ¬(∃ m ∈ dashboardMarkers, pyContains m (pyLower pageText) = true))) ∧
    (pyContains "dashboard" (pyLower pageText) = true →
      loginVerificationFailed pageText = false) := by
  constructor
  · simp [loginVerificationFailed, List.any_eq_true]
  · intro h
    have hB : (dashboardMarkers.any fun m => pyContains m (pyLower pageText))
        = true := by
      simp only [dashboardMarkers, List.any_eq_true]
      exact ⟨"dashboard", by simp, h⟩
    simp [loginVerificationFailed, hB]

/-- Closed witness for the C6 theorem: a page showing both login markers
and the dashboard marker is classified as logged-in. -/
theorem login_verification_dashboard_wins_witness :
    loginVerificationFailed
      "Sign in settings and Password change are on your Dashboard" = false :=
  (login_verification_dashboard_wins
      "Sign in settings and Password change are on your Dashboard").2
    (by decide)

/-- C7 counterexample: with an offer-ready pattern already matched on the
page, a throwing vision call makes `extract_status` return status
`pending` with the error text — the oracle failure does change a status
already resolved by a pattern match, contrary to the claim. -/
theorem oracle_failure_overrides_pattern_cex :
    findPatternStatus { offer_ready := ["congratulations"] }
        "Congratulations! Your offer letter is available"
      = some .offer_ready ∧
    extractStatus { offer_ready := ["congratulations"] }
        "Congratulations! Your offer letter is available"
        (Except.error "vision call timed out")
      = ("vision call timed out", .pending) := by
  exact ⟨by decide, rfl⟩

/-- C7 amended: the vision oracle is consulted unconditionally; a
successful call never changes a pattern-resolved status, and its
description is used for inference only when no pattern matched,
defaulting to pending when no keyword bucket matches; a failed call is
never fatal — `extract_status` still returns — but yields status pending
(with the error text) regardless of any status already resolved by a
pattern match. -/
theorem oracle_consultation_and_failure_policy
    (cfg : StatusDetectionConfig) (pageText visionText e : String)
    (st : ApplicationStatus) :
    (extractStatus cfg pageText (Except.error e) = (e, .pending)) ∧
    (findPatternStatus cfg pageText = some st →
      extractStatus cfg pageText (Except.ok visionText) = (visionText, st)) ∧
    (findPatternStatus cfg pageText = none →
      extractStatus cfg pageText (Except.ok visionText) =
        (visionText, inferFromVision visionText)) ∧
    ((∀ w ∈ (["offer", "conditional", "unconditional", "acceptance",
        "accepted", "enrolled", "deposit", "rejected", "declined",
        "not accepted"] : List String),
        pyContains w (pyLower visionText) = false) →
      inferFromVision visionText = .pending) := by
  refine ⟨rfl, ?_, ?_, ?_⟩
  · intro h
    simp [extractStatus, h]
  · intro h
    simp [extractStatus, h]
  · intro h
    simp [inferFromVision,
      h "offer" (by simp), h "conditional" (by simp),
      h "unconditional" (by simp), h "acceptance" (by simp),
      h "accepted" (by simp), h "enrolled" (by simp),
      h "deposit" (by simp), h "rejected" (by simp),
      h "declined" (by simp), h "not accepted" (by simp)]

/-- Closed witness for the amended C7 theorem: a pattern-resolved
offer-ready status survives a successful oracle call, and a description
matching no keyword bucket classifies as pending. -/
theorem oracle_consultation_and_failure_policy_witness :
    extractStatus { offer_ready := ["congratulations"] }
        "Congratulations! Your offer letter is available"
        (Except.ok "a letter page")
      = ("a letter page", .offer_ready) ∧
    inferFromVision "an empty grey page" = .pending :=
  ⟨(oracle_consultation_and_failure_policy
      { offer_ready := ["congratulations"] }
      "Congratulations! Your offer letter is available"
      "a letter page" "e" .offer_ready).2.1 (by decide),
    (oracle_consultation_and_failure_policy
      { offer_ready := ["congratulations"] }
      "Congratulations! Your offer letter is available"
      "an empty grey page" "e" .offer_ready).2.2.2 (by decide)⟩

/-- Helper for C9: `List.find?` returns the first list element, in order,
that satisfies the check. -/
theorem find_first_in_order (selOk : String → Bool) :
    ∀ (pre : List String) (s : String) (post : List String),
    (∀ x ∈ pre, selOk x = false) → selOk s = true →
    (pre ++ s :: post).find? selOk = some s := by
  intro pre
  induction pre with
  | nil =>
    intro s post _ hs
    simp [List.find?_cons_of_pos, hs]
  | cons x pre' ih =>
    intro s post hpre hs
    have hx : selOk x = false := hpre x (by simp)
    rw [List.cons_append, List.find?_cons_of_neg _ (by simp [hx])]
    exact ih s post (fun y hy => hpre y (by simp [hy])) hs

/-- C9: target resolution in click mode is deterministic and
short-circuiting: structural selectors are tried in list order before any
text hint, and the first selector that succeeds ends resolution — for any
behavior of the three hint-driven strategies (text selector, overlay
script, anchor query), the result is the first succeeding structural
selector. -/
theorem click_resolution_selector_preempts_hints
    (pre post hints : List String) (s : String)
    (selOk hintOk jsOk anchorOk : String → Bool)
    (hpre : ∀ x ∈ pre, selOk x = false) (hs : selOk s = true) :
    findAndClick (pre ++ s :: post) hints selOk hintOk jsOk anchorOk =
      some (.structuralSelector, s) := by
  unfold findAndClick
  rw [find_first_in_order selOk pre s post hpre hs]

/-- Closed witness for the C9 theorem: on a page where both the structural
selector and the text hint would match (all oracles succeed), the
structural selector's result is used. -/
theorem click_resolution_selector_preempts_hints_witness :
    findAndClick ["#download-btn"] ["Download Offer"]
      (fun _ => true) (fun _ => true) (fun _ => true) (fun _ => true) =
      some (.structuralSelector, "#download-btn") :=
  click_resolution_selector_preempts_hints [] [] ["Download Offer"]
    "#download-btn" (fun _ => true) (fun _ => true) (fun _ => true)
    (fun _ => true) (by intro x hx; simp at hx) rfl

/-- C10: parameter substitution is partial, uniformly over all five
`{param}` tokens: on any step value or hint assembled from brace-free
literal text and `{param}` tokens (with every set field value brace-free,
so no replacement manufactures a new token), `substitute` replaces
exactly those tokens whose context field is set to a non-empty value and
leaves the literal token text of every unset-or-empty field in the string
passed to the browser interaction. -/
theorem substitution_only_when_field_set (ctx : ActionContext)
    (tpl : List TemplatePiece)
    (hlit : ∀ s, TemplatePiece.lit s ∈ tpl → noBrace s = true)
    (hvals : ∀ (q : Param) (w : String), ctx.field q = some w →
      noBrace w = true) :
    ctx.substitute (renderTemplate tpl) = substitutedTemplate ctx tpl := by
  by_cases hempty : renderTemplate tpl = ""
  · simp only [ActionContext.substitute, if_pos hempty]
    rw [hempty, substitutedTemplate_of_render_empty ctx tpl hempty]
  · have h0 : renderTemplate tpl = renderWith (stageInterp ctx []) tpl := by
      unfold renderTemplate
      congr 1
    have h1 : applyParam ctx.username "{username}"
        (renderWith (stageInterp ctx []) tpl) =
        renderWith (stageInterp ctx [Param.username]) tpl :=
      applyParam_stage ctx .username [] (by simp) tpl hlit hvals
    have h2 : applyParam ctx.password "{password}"
        (renderWith (stageInterp ctx [Param.username]) tpl) =
        renderWith (stageInterp ctx [Param.username, Param.password]) tpl :=
      applyParam_stage ctx .password [.username] (by decide) tpl hlit hvals
    have h3 : applyParam ctx.application_id "{application_id}"
        (renderWith (stageInterp ctx [Param.username, Param.password]) tpl) =
        renderWith (stageInterp ctx
          [Param.username, Param.password, Param.application_id]) tpl :=
      applyParam_stage ctx .application_id [.username, .password]
        (by decide) tpl hlit hvals
    have h4 : applyParam ctx.student_name "{student_name}"
        (renderWith (stageInterp ctx
          [Param.username, Param.password, Param.application_id]) tpl) =
        renderWith (stageInterp ctx [Param.username, Param.password,
          Param.application_id, Param.student_name]) tpl :=
      applyParam_stage ctx .student_name
        [.username, .password, .application_id] (by decide) tpl hlit hvals
    have h5 : applyParam ctx.student_email "{student_email}"
        (renderWith (stageInterp ctx [Param.username, Param.password,
          Param.application_id, Param.student_name]) tpl) =
        renderWith (stageInterp ctx [Param.username, Param.password,
          Param.application_id, Param.student_name, Param.student_email])
          tpl :=
      applyParam_stage ctx .student_email
        [.username, .password, .application_id, .student_name]
        (by decide) tpl hlit hvals
    have hfin : renderWith (stageInterp ctx [Param.username, Param.password,
        Param.application_id, Param.student_name, Param.student_email]) tpl =
        substitutedTemplate ctx tpl := by
      unfold substitutedTemplate
      congr 1
      funext q
      cases q <;> simp [stageInterp]
    simp only [ActionContext.substitute, if_neg hempty]
    rw [h0, h1, h2, h3, h4, h5, hfin]

/-- Closed witness for the C10 theorem, at a realistic hint: with
`application_id` set non-empty and `student_name` unset, the
`{application_id}` token is replaced while the `{student_name}` token
survives verbatim in the same string. -/
theorem substitution_only_when_field_set_witness :
    (⟨none, none, some "A1234", none, none, none⟩ : ActionContext).substitute
        "Application {application_id} for {student_name}" =
      "Application A1234 for {student_name}" := by
  have h := substitution_only_when_field_set
    ⟨none, none, some "A1234", none, none, none⟩
    [TemplatePiece.lit "Application ", TemplatePiece.param .application_id,
      TemplatePiece.lit " for ", TemplatePiece.param .student_name]
    (by intro s hs
        simp only [List.mem_cons, List.not_mem_nil, or_false] at hs
        rcases hs with h1 | h1 | h1 | h1 <;> simp_all <;> decide)
    (by intro q w hw
        cases q <;> simp only [ActionContext.field] at hw
        · exact absurd hw (by simp)
        · exact absurd hw (by simp)
        · cases hw; decide
        · exact absurd hw (by simp)
        · exact absurd hw (by simp))
  have hrender : renderTemplate
      [TemplatePiece.lit "Application ", TemplatePiece.param .application_id,
        TemplatePiece.lit " for ", TemplatePiece.param .student_name] =
      "Application {application_id} for {student_name}" := by decide
  have hsub : substitutedTemplate
      ⟨none, none, some "A1234", none, none, none⟩
      [TemplatePiece.lit "Application ", TemplatePiece.param .application_id,
        TemplatePiece.lit " for ", TemplatePiece.param .student_name] =
      "Application A1234 for {student_name}" := by decide
  rw [← hrender, h, hsub]

